import Mathlib

set_option maxRecDepth 8000

/-!
# Verification of the CSv1-OL8 protocol client core

Shallow embedding of the protocol transaction layer of
`src/python/CSv1-OL8-IRS422.py` (Python 3):

* the fixed-width command encoder (`Csv1Device._cmd_*`, lines 143-165),
  built on `struct.pack(">BBH", ...)`;
* the batched transaction engine (`Csv1Device._send`, lines 201-216);
* the facade helpers (`write_table`, `cfg_rs422`, ..., lines 168-199);
* the target-string transport dispatch (`create_transport`, lines 101-128).

Python integers are unbounded, so integer arguments are embedded as `Int`.
Bytes are embedded as `Nat` (values 0..255) and byte strings as `List Nat`.
Fallible operations return `Except`: in Python 3, `struct.pack` raises
`struct.error` when a value does not fit in its fixed-width field (`">B"`
requires `0 <= n <= 255`, `">H"` requires `0 <= n <= 65535`); it never
truncates.

The transport is embedded as the read behaviour alone, a function
`read : Nat → List Nat` from a requested size to the bytes obtained (both
concrete transports return at most the requested size, possibly fewer on
timeout).  What `_send` writes, and how many bytes it requests, are recorded
in a `SendTrace` so that theorems can speak about the bytes put on the wire.
-/

namespace Csv1

/-! ## struct.pack model -/

/-- Model of `struct.pack(">B", n)`: one unsigned byte; raises `struct.error` when
`n` is outside `0..255` (Python 3 does not wrap). -/
def packB (n : Int) : Except String Nat :=
  if 0 ≤ n ∧ n < 256 then .ok n.toNat
  else .error "ubyte format requires 0 <= number <= 255"

/-- Model of `struct.pack(">H", n)`: one big-endian unsigned 16-bit word; raises
`struct.error` when `n` is outside `0..65535`. -/
def packH (n : Int) : Except String (List Nat) :=
  if 0 ≤ n ∧ n < 65536 then .ok [n.toNat / 256, n.toNat % 256]
  else .error "ushort format requires 0 <= number <= 65535"

/-- Model of `struct.pack(">BBH", b0, b1, v)`: two bytes followed by a big-endian
16-bit word — the wire layout of every command. -/
def packBBH (b0 b1 v : Int) : Except String (List Nat) := do
  let x0 ← packB b0
  let x1 ← packB b1
  let xs ← packH v
  pure (x0 :: x1 :: xs)

/-! ## Command builders (`Csv1Device._cmd_*`, lines 143-165) -/

/-- Model of `_cmd_direct(channel, value)`: `struct.pack(">BBH", channel, 0x00, value)`. -/
def _cmd_direct (channel value : Int) : Except String (List Nat) :=
  packBBH channel 0x00 value

/-- Model of `_cmd_bind_table(channel, table)`:
`struct.pack(">BBH", channel, 0x10 + (table & 0x03), 0x0000)`. -/
def _cmd_bind_table (channel table : Int) : Except String (List Nat) :=
  packBBH channel (0x10 + Int.land table 0x03) 0x0000

/-- Model of `_cmd_write_table(table, offset, value)`:
`struct.pack(">BBH", 0x10 + (table & 0x03), offset, value)`. -/
def _cmd_write_table (table offset value : Int) : Except String (List Nat) :=
  packBBH (0x10 + Int.land table 0x03) offset value

/-- Model of `_cmd_set_offset(offset)`: `struct.pack(">BBH", 0xFF, offset, 0x0000)`. -/
def _cmd_set_offset (offset : Int) : Except String (List Nat) :=
  packBBH 0xFF offset 0x0000

/-- Model of `_cmd_gpio(channel, state)`:
`struct.pack(">BBH", 0xFE, channel, 0x0001 if state else 0x0000)`. -/
def _cmd_gpio (channel : Int) (state : Bool) : Except String (List Nat) :=
  packBBH 0xFE channel (if state then 0x0001 else 0x0000)

/-- Model of `_cmd_keepalive()`: `struct.pack(">BBH", 0xFD, 0x00, 0x0000)`. -/
def _cmd_keepalive : Except String (List Nat) :=
  packBBH 0xFD 0x00 0x0000

/-- Model of `_cmd_ldac()`: `struct.pack(">BBH", 0xFC, 0x00, 0x0000)`. -/
def _cmd_ldac : Except String (List Nat) :=
  packBBH 0xFC 0x00 0x0000

/-- Model of `_cmd_register(register, value)`: `struct.pack(">BBH", 0xFB, register, value)`. -/
def _cmd_register (register value : Int) : Except String (List Nat) :=
  packBBH 0xFB register value

/-! ## Transaction engine (`Csv1Device._send`, lines 201-216) -/

/-- Model of `Csv1Device.STATUS_OK = 0x0000`. -/
def STATUS_OK : Nat := 0x0000

/-- The three failure shapes `_send` can raise.  In the source each is an
`IOError` whose message carries exactly these data (the surrounding
`except Exception` clause re-wraps the message as a communication error
without changing its content). -/
inductive SendError where
  /-- Raised as "Timeout waiting for response (expected E bytes, got 0)". -/
  | timeout (expected : Nat)
  /-- Raised as the incomplete-response error "expected E bytes, got G". -/
  | incomplete (expected got : Nat)
  /-- Raised as "Device returned status 0xXXXX". -/
  | deviceStatus (code : Nat)
deriving DecidableEq

instance (ε α : Type) [DecidableEq ε] [DecidableEq α] : DecidableEq (Except ε α)
  | .ok a, .ok b =>
      if h : a = b then .isTrue (h ▸ rfl)
      else .isFalse (fun hc => h (Except.ok.inj hc))
  | .ok _, .error _ => .isFalse (fun hc => Except.noConfusion hc)
  | .error _, .ok _ => .isFalse (fun hc => Except.noConfusion hc)
  | .error a, .error b =>
      if h : a = b then .isTrue (h ▸ rfl)
      else .isFalse (fun hc => h (Except.error.inj hc))

/-- What one `_send` call does: the bytes written to the transport in its
single `write`, the size passed to its single `read`, and the outcome. -/
structure SendTrace where
  written : List Nat
  readRequested : Nat
  outcome : Except SendError Unit
deriving DecidableEq

/-- Model of `struct.unpack(">H", rsp[i:i+2])` applied down the response: the
big-endian 16-bit status words, in wire order. -/
def statusWords : List Nat → List Nat
  | [] => []
  | [_] => []
  | b0 :: b1 :: rest => (b0 * 256 + b1) :: statusWords rest

/-- The status loop of `_send` (lines 213-216): raise on the first
status word different from `STATUS_OK`, otherwise fall through. -/
def checkStatus : List Nat → Except SendError Unit
  | [] => .ok ()
  | s :: rest =>
      if s ≠ STATUS_OK then .error (.deviceStatus s) else checkStatus rest

/-- Model of `Csv1Device._send(commands)` (lines 201-216):
`pkt = b"".join(commands)`, one `transport.write(pkt)`, one
`rsp = transport.read(len(commands) * 2)`, the length guard raising
timeout (0 bytes) or partial-response (some but not all bytes), then the
status-word loop. -/
def _send (read : Nat → List Nat) (commands : List (List Nat)) : SendTrace :=
  let pkt := commands.flatten
  let rsp := read (commands.length * 2)
  { written := pkt
    readRequested := commands.length * 2
    outcome :=
      if rsp.length ≠ commands.length * 2 then
        if rsp.length = 0 then .error (.timeout (commands.length * 2))
        else .error (.incomplete (commands.length * 2) rsp.length)
      else checkStatus (statusWords rsp) }

/-! ## Facade helpers (lines 168-199) -/

/-- Model of `write_dac(channel, value16_be)`. -/
def write_dac (read : Nat → List Nat) (channel value16_be : Int) :
    Except String SendTrace := do
  let c ← _cmd_direct channel value16_be
  pure (_send read [c])

/-- Model of `bind_table(channel, table)`. -/
def bind_table (read : Nat → List Nat) (channel table : Int) :
    Except String SendTrace := do
  let c ← _cmd_bind_table channel table
  pure (_send read [c])

/-- The command-building loop of `write_table`:
`for i, v in enumerate(values_be): cmds.append(self._cmd_write_table(table, offset + i, v))`,
with `i0` the next enumeration index. -/
def writeTableCmdsAux (table offset : Int) : List Int → Nat →
    Except String (List (List Nat))
  | [], _ => .ok []
  | v :: rest, i0 => do
      let c ← _cmd_write_table table (offset + (i0 : Int)) v
      let cs ← writeTableCmdsAux table offset rest (i0 + 1)
      pure (c :: cs)

/-- Model of `write_table(table, offset, values_be)` (lines 174-178): build one
write-table-entry command per value, then `_send` them as one batch. -/
def write_table (read : Nat → List Nat) (table offset : Int)
    (values_be : List Int) : Except String SendTrace := do
  let cmds ← writeTableCmdsAux table offset values_be 0
  pure (_send read cmds)

/-- Model of `set_offset(offset)`. -/
def set_offset (read : Nat → List Nat) (offset : Int) :
    Except String SendTrace := do
  let c ← _cmd_set_offset offset
  pure (_send read [c])

/-- Model of `set_gpio(channel, state)`. -/
def set_gpio (read : Nat → List Nat) (channel : Int) (state : Bool) :
    Except String SendTrace := do
  let c ← _cmd_gpio channel state
  pure (_send read [c])

/-- Model of `ldac()`. -/
def ldac (read : Nat → List Nat) : Except String SendTrace := do
  let c ← _cmd_ldac
  pure (_send read [c])

/-- Model of `keepalive()`. -/
def keepalive (read : Nat → List Nat) : Except String SendTrace := do
  let c ← _cmd_keepalive
  pure (_send read [c])

/-- Model of `write_register(reg, value)`. -/
def write_register (read : Nat → List Nat) (reg value : Int) :
    Except String SendTrace := do
  let c ← _cmd_register reg value
  pure (_send read [c])

/-- Model of `cfg_rs422(speed)` (lines 195-199): two register writes in one batch,
`_cmd_register(1, speed >> 16)` and `_cmd_register(2, speed & 0xffff)`.
Python `>>` on ints is an arithmetic shift (`Int.shiftRight`) and `&` is
bitwise and on the two-complement representation (`Int.land`). -/
def cfg_rs422 (read : Nat → List Nat) (speed : Int) :
    Except String SendTrace := do
  let c1 ← _cmd_register 1 (Int.shiftRight speed 16)
  let c2 ← _cmd_register 2 (Int.land speed 0xffff)
  pure (_send read [c1, c2])

/-! ## Target-string dispatch (`create_transport`, lines 101-128)

The source classifies the target with two anchored regular expressions and
falls back to serial:

* `tcp_pattern` is `^(\d[1,3]\.\d[1,3]\.\d[1,3]\.\d[1,3]):(\d+)$` with the
  repetition bounds written in braces in the source;
* `tcp_ipv6_pattern` is `^\[([^\]]+)\]:(\d+)$`.

Both are matched with `re.match`.  The embedding is a deterministic
recognizer: each quantified piece (`\d{1,3}`, `\d+`, `[^\]]+`) is followed
by a delimiter its character class cannot produce, so greedy matching with
backtracking accepts exactly when the maximal run has a permitted length
and is followed by the delimiter.  The Python `$` anchor accepts either the end of
the string or a position just before a final trailing newline; `atEnd`
reproduces that. -/

/-- Membership in `\d` — the ASCII digits. -/
def isDigitChar (c : Char) : Bool := decide ('0' ≤ c) && decide (c ≤ '9')

/-- Length of the maximal leading run of characters satisfying `p`,
together with the remainder. -/
def takeRun (p : Char → Bool) : List Char → Nat × List Char
  | [] => (0, [])
  | c :: rest =>
      if p c then
        let (n, r) := takeRun p rest
        (n + 1, r)
      else (0, c :: rest)

/-- Python regex `$` (default mode): end of input, or just before one
final trailing newline. -/
def atEnd (cs : List Char) : Bool :=
  decide (cs = []) || decide (cs = ['\n'])

/-- One to three digits followed by a non-digit delimiter: consume the digit run,
require its length in `1..3`. -/
def octet (cs : List Char) : Option (List Char) :=
  let (n, r) := takeRun isDigitChar cs
  if 1 ≤ n ∧ n ≤ 3 then some r else none

/-- A literal character. -/
def lit (c : Char) : List Char → Option (List Char)
  | x :: rest => if x = c then some rest else none
  | [] => none

/-- Port tail `(\d+)$`: at least one digit, then the end anchor. -/
def digitsThenEnd (cs : List Char) : Bool :=
  let (n, r) := takeRun isDigitChar cs
  decide (1 ≤ n) && atEnd r

/-- Embedding of `re.match(tcp_pattern, target)`. -/
def matchTcpTarget (cs : List Char) : Bool :=
  (do
    let r ← octet cs
    let r ← lit '.' r
    let r ← octet r
    let r ← lit '.' r
    let r ← octet r
    let r ← lit '.' r
    let r ← octet r
    let r ← lit ':' r
    pure r).elim false digitsThenEnd

/-- Embedding of `re.match(tcp_ipv6_pattern, target)`.  The negated class
matches every character except `]` (including newlines). -/
def matchTcpIpv6Target (cs : List Char) : Bool :=
  match cs with
  | '[' :: rest =>
      let (n, r) := takeRun (fun c => c != ']') rest
      if 1 ≤ n then
        match r with
        | ']' :: ':' :: r2 => digitsThenEnd r2
        | _ => false
      else false
  | _ => false

/-- The two transport classes `create_transport` can build. -/
inductive TransportKind where
  | tcp
  | serial
deriving DecidableEq

/-- Model of `create_transport(target)` (lines 101-128): try the IPv4 pattern, then
the bracketed-IPv6 pattern, otherwise assume a serial port.  Only the
branch taken is modelled; connection set-up and timeouts are I/O. -/
def create_transport (target : String) : TransportKind :=
  if matchTcpTarget target.data then .tcp
  else if matchTcpIpv6Target target.data then .tcp
  else .serial

/-! ## Spec-modelled decoder -/

/-- Modelled from the spec: the repository contains no decoder for command
bytes; the round-trip property of section 8 ("encoding a direct-DAC command and
decoding its 4 bytes recovers `(channel, 0x00, value)`") presupposes the
inverse of the `">BBH"` pack — `struct.unpack(">BBH", bs)`: two bytes and
one big-endian unsigned 16-bit word, defined only on 4-byte inputs. -/
def unpackBBH : List Nat → Option (Nat × Nat × Nat)
  | [b0, b1, v1, v2] => some (b0, b1, v1 * 256 + v2)
  | _ => none

/-! ## Specification-side descriptions

The next two definitions are not translations of source code: they state, in
closed form, the command bytes that `write_table` is expected to build, so
that theorems can compare the implementation against them. -/

/-- Expected bytes of the write-table-entry command for enumeration index
`i` when every field is within its width. -/
def writeTableCmdBytes (table offset : Int) (i : Nat) (v : Int) : List Nat :=
  [(16 + Int.land table 3).toNat, (offset + (i : Int)).toNat,
   v.toNat / 256, v.toNat % 256]

/-- Expected command list of `write_table`, one command per value, the
enumeration index starting at `i0`. -/
def expectedWriteTableCmds (table offset : Int) : Nat → List Int → List (List Nat)
  | _, [] => []
  | i0, v :: rest =>
      writeTableCmdBytes table offset i0 v ::
        expectedWriteTableCmds table offset (i0 + 1) rest

/-! ## Helper lemmas -/

theorem packB_ok (n : Int) (h0 : 0 ≤ n) (h1 : n < 256) :
    packB n = .ok n.toNat := by
  simp [packB, h0, h1]

theorem packH_ok (n : Int) (h0 : 0 ≤ n) (h1 : n < 65536) :
    packH n = .ok [n.toNat / 256, n.toNat % 256] := by
  simp [packH, h0, h1]

theorem packBBH_ok (b0 b1 v : Int)
    (hb0 : 0 ≤ b0) (hb0l : b0 < 256) (hb1 : 0 ≤ b1) (hb1l : b1 < 256)
    (hv : 0 ≤ v) (hvl : v < 65536) :
    packBBH b0 b1 v = .ok [b0.toNat, b1.toNat, v.toNat / 256, v.toNat % 256] := by
  simp only [packBBH, packB_ok b0 hb0 hb0l, packB_ok b1 hb1 hb1l,
    packH_ok v hv hvl]
  rfl

theorem land3_natCast (t : Nat) :
    Int.land (t : Int) 3 = ((t % 4 : Nat) : Int) := by
  have h : Int.land (t : Int) 3 = ((t &&& 3 : Nat) : Int) := rfl
  have h2 := Nat.and_pow_two_sub_one_eq_mod t 2
  norm_num at h2
  rw [h, h2]

theorem land3_nonneg (t : Int) : 0 ≤ Int.land t 3 := by
  cases t with
  | ofNat m =>
      have h : Int.land (Int.ofNat m) 3 = Int.ofNat (m &&& 3) := rfl
      rw [h]; exact Int.ofNat_nonneg _
  | negSucc m =>
      have h : Int.land (Int.negSucc m) 3 = Int.ofNat (Nat.ldiff 3 m) := rfl
      rw [h]; exact Int.ofNat_nonneg _

theorem land3_lt (t : Int) : Int.land t 3 < 4 := by
  cases t with
  | ofNat m =>
      have h : Int.land (Int.ofNat m) 3 = Int.ofNat (m &&& 3) := rfl
      have h2 := Nat.and_pow_two_sub_one_eq_mod m 2
      norm_num at h2
      rw [h, h2]
      exact Int.ofNat_lt.mpr (Nat.mod_lt m (by norm_num))
  | negSucc m =>
      have h : Int.land (Int.negSucc m) 3 = Int.ofNat (Nat.ldiff 3 m) := rfl
      have hlt : Nat.ldiff 3 m < 4 := by
        have h4 : (4 : Nat) = 2 ^ 2 := by norm_num
        rw [h4]
        apply Nat.lt_pow_two_of_testBit
        intro j hj
        rw [Nat.testBit_ldiff]
        have h3 : Nat.testBit 3 j = false := by
          apply Nat.testBit_lt_two_pow
          calc (3 : Nat) < 2 ^ 2 := by norm_num
          _ ≤ 2 ^ j := Nat.pow_le_pow_right (by norm_num) hj
        simp [h3]
      rw [h]
      exact Int.ofNat_lt.mpr hlt

theorem checkStatus_ok (l : List Nat) (h : ∀ s ∈ l, s = 0) :
    checkStatus l = .ok () := by
  induction l with
  | nil => rfl
  | cons s rest ih =>
      have hs : s = 0 := h s (List.mem_cons_self s rest)
      have ih2 := ih (fun x hx => h x (List.mem_cons_of_mem s hx))
      simp [checkStatus, hs, STATUS_OK, ih2]

theorem checkStatus_append_first (pre : List Nat) (s : Nat) (post : List Nat)
    (hpre : ∀ x ∈ pre, x = 0) (hs : s ≠ 0) :
    checkStatus (pre ++ s :: post) = .error (.deviceStatus s) := by
  induction pre with
  | nil => simp [checkStatus, STATUS_OK, hs]
  | cons x rest ih =>
      have hx : x = 0 := hpre x (List.mem_cons_self x rest)
      have ih2 := ih (fun y hy => hpre y (List.mem_cons_of_mem x hy))
      simp [checkStatus, hx, STATUS_OK, ih2]

theorem statusWords_length : ∀ l : List Nat,
    (statusWords l).length = l.length / 2
  | [] => by simp [statusWords]
  | [_] => by simp [statusWords]
  | _ :: _ :: rest => by
      have ih := statusWords_length rest
      simp [statusWords, ih]
      omega

theorem packB_err (n : Int) (h : ¬(0 ≤ n ∧ n < 256)) :
    packB n = .error "ubyte format requires 0 <= number <= 255" := by
  simp only [packB, if_neg h]

theorem packH_err (n : Int) (h : ¬(0 ≤ n ∧ n < 65536)) :
    packH n = .error "ushort format requires 0 <= number <= 65535" := by
  simp only [packH, if_neg h]

theorem cmd_direct_channel_oob (ch v : Int) (h : ¬(0 ≤ ch ∧ ch < 256)) :
    (_cmd_direct ch v).toOption = none := by
  simp only [_cmd_direct, packBBH, packB_err ch h]
  rfl

theorem cmd_direct_value_oob (ch v : Int) (h : ¬(0 ≤ v ∧ v < 65536)) :
    (_cmd_direct ch v).toOption = none := by
  simp only [_cmd_direct, packBBH, packH_err v h]
  cases hb : packB ch with
  | error e => rfl
  | ok a => rfl

theorem flatten_length_of_all4 : ∀ commands : List (List Nat),
    (∀ c ∈ commands, c.length = 4) →
    commands.flatten.length = 4 * commands.length
  | [], _ => rfl
  | c :: cs, h => by
      have hc := h c (List.mem_cons_self c cs)
      have ih := flatten_length_of_all4 cs
        (fun x hx => h x (List.mem_cons_of_mem c hx))
      simp only [List.flatten_cons, List.length_append, List.length_cons, hc, ih]
      ring

theorem writeTableCmdsAux_ok (table offset : Int) :
    ∀ (values : List Int) (i0 : Nat),
    (∀ i, i < values.length →
      0 ≤ offset + ((i0 + i : Nat) : Int) ∧
        offset + ((i0 + i : Nat) : Int) < 256) →
    (∀ v ∈ values, 0 ≤ v ∧ v < 65536) →
    writeTableCmdsAux table offset values i0 =
      .ok (expectedWriteTableCmds table offset i0 values)
  | [], _, _, _ => rfl
  | v :: rest, i0, hoff, hval => by
      have h0 := hoff 0 (Nat.succ_pos rest.length)
      rw [Nat.add_zero] at h0
      have hv := hval v (List.mem_cons_self v rest)
      have hb0 : (0 : Int) ≤ 16 + Int.land table 3 := by
        have := land3_nonneg table; omega
      have hb0l : 16 + Int.land table 3 < 256 := by
        have := land3_lt table; omega
      have hc : _cmd_write_table table (offset + (i0 : Int)) v =
          .ok (writeTableCmdBytes table offset i0 v) := by
        simp only [_cmd_write_table]
        rw [packBBH_ok _ _ _ hb0 hb0l h0.1 h0.2 hv.1 hv.2]
        rfl
      have hrest := writeTableCmdsAux_ok table offset rest (i0 + 1)
        (fun i hi => by
          have h := hoff (1 + i) (by simp only [List.length_cons]; omega)
          have he : i0 + (1 + i) = i0 + 1 + i := by omega
          rw [he] at h
          exact h)
        (fun x hx => hval x (List.mem_cons_of_mem v hx))
      simp only [writeTableCmdsAux, hc, hrest, expectedWriteTableCmds]
      rfl

theorem expectedWriteTableCmds_length (table offset : Int) :
    ∀ (i0 : Nat) (values : List Int),
    (expectedWriteTableCmds table offset i0 values).length = values.length
  | _, [] => rfl
  | i0, v :: rest => by
      simp [expectedWriteTableCmds,
        expectedWriteTableCmds_length table offset (i0 + 1) rest]

theorem expectedWriteTableCmds_getElem (table offset : Int) :
    ∀ (i0 : Nat) (values : List Int) (i : Nat),
    (expectedWriteTableCmds table offset i0 values)[i]? =
      (values[i]?).map (fun v => writeTableCmdBytes table offset (i0 + i) v)
  | _, [], i => by simp [expectedWriteTableCmds]
  | i0, v :: rest, 0 => by simp [expectedWriteTableCmds]
  | i0, v :: rest, i + 1 => by
      have ih := expectedWriteTableCmds_getElem table offset (i0 + 1) rest i
      simp only [expectedWriteTableCmds, List.getElem?_cons_succ, ih]
      have he : i0 + 1 + i = i0 + (i + 1) := by omega
      rw [he]

/-! ## Claim theorems -/

/-- C1: for every batch of N commands (each command a 4-byte string),
`_send` writes exactly the in-order concatenation of the N command
encodings as one buffer — never reordering, deduplicating, or padding —
and then issues a single read request for exactly `2 * N` bytes. -/
theorem send_writes_concat_and_reads_twice_length
    (read : Nat → List Nat) (commands : List (List Nat))
    (hlen : ∀ c ∈ commands, c.length = 4) :
    (_send read commands).written = commands.flatten ∧
    (_send read commands).written.length = 4 * commands.length ∧
    (_send read commands).readRequested = 2 * commands.length := by
  refine ⟨rfl, ?_, Nat.mul_comm _ _⟩
  have hw : (_send read commands).written = commands.flatten := rfl
  rw [hw]
  exact flatten_length_of_all4 commands hlen

/-- Witness for C1 at a concrete two-command batch. -/
theorem send_writes_concat_and_reads_twice_length_witness :
    (_send (fun _ => [0, 0, 0, 0]) [[1, 2, 3, 4], [5, 6, 7, 8]]).written =
      [[1, 2, 3, 4], [5, 6, 7, 8]].flatten ∧
    (_send (fun _ => [0, 0, 0, 0]) [[1, 2, 3, 4], [5, 6, 7, 8]]).written.length =
      4 * [[1, 2, 3, 4], [5, 6, 7, 8]].length ∧
    (_send (fun _ => [0, 0, 0, 0]) [[1, 2, 3, 4], [5, 6, 7, 8]]).readRequested =
      2 * [[1, 2, 3, 4], [5, 6, 7, 8]].length :=
  send_writes_concat_and_reads_twice_length (fun _ => [0, 0, 0, 0])
    [[1, 2, 3, 4], [5, 6, 7, 8]] (by decide)

/-- C2: when the read returns exactly `2 * N` bytes, `_send` sees N
big-endian 16-bit status words in submission order; if all are zero the
outcome is plain success, and the first non-zero word makes the outcome a
device-status error carrying exactly that code (later words unreported). -/
theorem send_checks_status_words_in_order
    (read : Nat → List Nat) (commands : List (List Nat))
    (hlen : (read (commands.length * 2)).length = commands.length * 2) :
    (statusWords (read (commands.length * 2))).length = commands.length ∧
    ((∀ s ∈ statusWords (read (commands.length * 2)), s = 0) →
      (_send read commands).outcome = .ok ()) ∧
    (∀ pre s post,
      statusWords (read (commands.length * 2)) = pre ++ s :: post →
      (∀ x ∈ pre, x = 0) → s ≠ 0 →
      (_send read commands).outcome = .error (.deviceStatus s)) := by
  have hout : (_send read commands).outcome =
      checkStatus (statusWords (read (commands.length * 2))) := by
    have h1 : (_send read commands).outcome =
        if (read (commands.length * 2)).length ≠ commands.length * 2 then
          (if (read (commands.length * 2)).length = 0 then
            Except.error (SendError.timeout (commands.length * 2))
          else
            Except.error (SendError.incomplete (commands.length * 2)
              (read (commands.length * 2)).length))
        else checkStatus (statusWords (read (commands.length * 2))) := rfl
    rw [h1, if_neg (fun hcon => hcon hlen)]
  refine ⟨?_, ?_, ?_⟩
  · rw [statusWords_length, hlen]
    omega
  · intro h
    rw [hout]
    exact checkStatus_ok _ h
  · intro pre s post heq hpre hs
    rw [hout, heq]
    exact checkStatus_append_first pre s post hpre hs

/-- Witness for C2: three commands, status words `[0, 7, 9]` — the first
non-zero code 7 is reported, the later 9 is not. -/
theorem send_checks_status_words_in_order_witness :
    (_send (fun _ => [0, 0, 0, 7, 0, 9])
        [[0, 0, 0, 0], [0, 0, 0, 0], [0, 0, 0, 0]]).outcome =
      .error (.deviceStatus 7) :=
  (send_checks_status_words_in_order (fun _ => [0, 0, 0, 7, 0, 9])
      [[0, 0, 0, 0], [0, 0, 0, 0], [0, 0, 0, 0]] (by decide)).2.2
    [0] 7 [9] (by decide) (by decide) (by decide)

/-- C3: when the read returns fewer than `2 * N` bytes (N ≥ 1), `_send`
fails — with a timeout error on a zero-byte response and a
partial-response error otherwise — and never reports a status code. -/
theorem send_short_read_fails_without_status
    (read : Nat → List Nat) (commands : List (List Nat))
    (_hn : 1 ≤ commands.length)
    (hlt : (read (commands.length * 2)).length < commands.length * 2) :
    ((read (commands.length * 2)).length = 0 →
      (_send read commands).outcome =
        .error (.timeout (commands.length * 2))) ∧
    ((read (commands.length * 2)).length ≠ 0 →
      (_send read commands).outcome =
        .error (.incomplete (commands.length * 2)
          (read (commands.length * 2)).length)) ∧
    (∀ code, (_send read commands).outcome ≠ .error (.deviceStatus code)) := by
  have h1 : (_send read commands).outcome =
      if (read (commands.length * 2)).length ≠ commands.length * 2 then
        (if (read (commands.length * 2)).length = 0 then
          Except.error (SendError.timeout (commands.length * 2))
        else
          Except.error (SendError.incomplete (commands.length * 2)
            (read (commands.length * 2)).length))
      else checkStatus (statusWords (read (commands.length * 2))) := rfl
  have hout : (_send read commands).outcome =
      if (read (commands.length * 2)).length = 0 then
        Except.error (SendError.timeout (commands.length * 2))
      else
        Except.error (SendError.incomplete (commands.length * 2)
          (read (commands.length * 2)).length) := by
    rw [h1, if_pos (Nat.ne_of_lt hlt)]
  refine ⟨?_, ?_, ?_⟩
  · intro h
    rw [hout, if_pos h]
  · intro h
    rw [hout, if_neg h]
  · intro code
    rw [hout]
    by_cases h : (read (commands.length * 2)).length = 0
    · rw [if_pos h]
      intro hcon
      exact SendError.noConfusion (Except.error.inj hcon)
    · rw [if_neg h]
      intro hcon
      exact SendError.noConfusion (Except.error.inj hcon)

/-- Witness for C3: a zero-byte response yields the timeout error, a
2-of-4-byte response yields the partial-response error. -/
theorem send_short_read_fails_without_status_witness :
    (_send (fun _ => []) [[1, 2, 3, 4]]).outcome = .error (.timeout 2) ∧
    (_send (fun _ => [0, 0]) [[1, 2, 3, 4], [5, 6, 7, 8]]).outcome =
      .error (.incomplete 4 2) :=
  ⟨(send_short_read_fails_without_status (fun _ => []) [[1, 2, 3, 4]]
      (by decide) (by decide)).1 (by decide),
   (send_short_read_fails_without_status (fun _ => [0, 0])
      [[1, 2, 3, 4], [5, 6, 7, 8]] (by decide) (by decide)).2.1 (by decide)⟩

/-- C4 counterexample: the encoders do not truncate out-of-range fields to
their width — `struct.pack` rejects them, so channel 256, offset 256,
value 65536 and the negative channel -1 all fail to encode instead of
yielding a wrapped 4-byte command as the claim states. -/
theorem cmd_encoder_truncation_refuted :
    (_cmd_direct 256 0).toOption = none ∧
    (_cmd_write_table 0 256 0).toOption = none ∧
    (_cmd_direct 0 65536).toOption = none ∧
    (_cmd_direct (-1) 0).toOption = none := by decide

/-- C4 (amended): only the table index is truncated (masked to its low 2
bits, for any integer table); every encoder yields exactly the 4 wire
bytes when channel, offset, register lie in `0..255` and value in
`0..65535`, and `_cmd_direct` rejects (raises, rather than wraps) any
channel or value outside those ranges. -/
theorem cmd_encoders_in_range_and_table_masked
    (channel offset register value table : Int) (state : Bool)
    (hch0 : 0 ≤ channel) (hch1 : channel < 256)
    (hoff0 : 0 ≤ offset) (hoff1 : offset < 256)
    (hreg0 : 0 ≤ register) (hreg1 : register < 256)
    (hv0 : 0 ≤ value) (hv1 : value < 65536) :
    _cmd_direct channel value =
      .ok [channel.toNat, 0, value.toNat / 256, value.toNat % 256] ∧
    _cmd_bind_table channel table =
      .ok [channel.toNat, (16 + Int.land table 3).toNat, 0, 0] ∧
    _cmd_write_table table offset value =
      .ok [(16 + Int.land table 3).toNat, offset.toNat,
           value.toNat / 256, value.toNat % 256] ∧
    _cmd_set_offset offset = .ok [255, offset.toNat, 0, 0] ∧
    _cmd_gpio channel state =
      .ok [254, channel.toNat, 0, if state then 1 else 0] ∧
    _cmd_keepalive = .ok [253, 0, 0, 0] ∧
    _cmd_ldac = .ok [252, 0, 0, 0] ∧
    _cmd_register register value =
      .ok [251, register.toNat, value.toNat / 256, value.toNat % 256] ∧
    (∀ ch v : Int, ¬(0 ≤ ch ∧ ch < 256) → (_cmd_direct ch v).toOption = none) ∧
    (∀ ch v : Int, ¬(0 ≤ v ∧ v < 65536) → (_cmd_direct ch v).toOption = none) := by
  have hm0 : (0 : Int) ≤ 16 + Int.land table 3 := by
    have := land3_nonneg table; omega
  have hm1 : 16 + Int.land table 3 < 256 := by
    have := land3_lt table; omega
  refine ⟨?_, ?_, ?_, ?_, ?_, by decide, by decide, ?_, cmd_direct_channel_oob,
    cmd_direct_value_oob⟩
  · simp only [_cmd_direct]
    rw [packBBH_ok _ _ _ hch0 hch1 (by norm_num) (by norm_num) hv0 hv1]
    rfl
  · simp only [_cmd_bind_table]
    rw [packBBH_ok _ _ _ hch0 hch1 hm0 hm1 (by norm_num) (by norm_num)]
    rfl
  · simp only [_cmd_write_table]
    rw [packBBH_ok _ _ _ hm0 hm1 hoff0 hoff1 hv0 hv1]
  · simp only [_cmd_set_offset]
    rw [packBBH_ok _ _ _ (by norm_num) (by norm_num) hoff0 hoff1
      (by norm_num) (by norm_num)]
    rfl
  · cases state with
    | true =>
        simp only [_cmd_gpio, if_pos rfl]
        rw [packBBH_ok _ _ _ (by norm_num) (by norm_num) hch0 hch1
          (by norm_num) (by norm_num)]
        rfl
    | false =>
        simp only [_cmd_gpio]
        rw [if_neg (by simp)]
        rw [packBBH_ok _ _ _ (by norm_num) (by norm_num) hch0 hch1
          (by norm_num) (by norm_num)]
        rfl
  · simp only [_cmd_register]
    rw [packBBH_ok _ _ _ (by norm_num) (by norm_num) hreg0 hreg1 hv0 hv1]
    rfl

/-- Witness for the amended C4 at concrete in-range fields. -/
theorem cmd_encoders_in_range_witness :
    _cmd_direct 1 4660 = .ok [1, 0, 18, 52] ∧
    _cmd_bind_table 1 6 = .ok [1, 18, 0, 0] := by
  have h := cmd_encoders_in_range_and_table_masked 1 2 3 4660 6 true
    (by decide) (by decide) (by decide) (by decide) (by decide) (by decide)
    (by decide) (by decide)
  refine ⟨?_, ?_⟩
  · have h1 := h.1
    norm_num at h1
    exact h1
  · have h2 := h.2.1
    norm_num at h2
    exact h2

/-- C5 counterexample: at speed `2^32` the high 16 bits no longer fit the
16-bit register value, `struct.pack` rejects them, and `cfg_rs422` fails
to emit any batch instead of emitting two register writes. -/
theorem cfg_rs422_speed_overflow_rejected :
    (cfg_rs422 (fun _ => [0, 0, 0, 0]) 4294967296).toOption = none := by decide

/-- C5 (amended): for every speed in `0 ≤ speed < 2^32`, `cfg_rs422` emits
exactly two register-write commands in one batch — register 1 with the
high 16 bits, register 2 with the low 16 bits — expecting a 4-byte
response. -/
theorem cfg_rs422_two_register_writes
    (read : Nat → List Nat) (speed : Int)
    (h0 : 0 ≤ speed) (h1 : speed < 4294967296) :
    cfg_rs422 read speed = .ok (_send read
      [[251, 1, speed.toNat / 65536 / 256, speed.toNat / 65536 % 256],
       [251, 2, speed.toNat % 65536 / 256, speed.toNat % 65536 % 256]]) ∧
    (_send read
      [[251, 1, speed.toNat / 65536 / 256, speed.toNat / 65536 % 256],
       [251, 2, speed.toNat % 65536 / 256, speed.toNat % 65536 % 256]]).readRequested =
      4 := by
  obtain ⟨n, rfl⟩ := Int.eq_ofNat_of_zero_le h0
  have hn : n < 4294967296 := by exact_mod_cast h1
  have hsh : Int.shiftRight ((n : Nat) : Int) 16 = ((n >>> 16 : Nat) : Int) := rfl
  have hdiv : n >>> 16 = n / 65536 := by
    rw [Nat.shiftRight_eq_div_pow]
  have hland : Int.land ((n : Nat) : Int) 65535 = ((n &&& 65535 : Nat) : Int) := rfl
  have hmod : n &&& 65535 = n % 65536 := by
    have h := Nat.and_pow_two_sub_one_eq_mod n 16
    norm_num at h
    exact h
  have hc1 : _cmd_register 1 (Int.shiftRight ((n : Nat) : Int) 16) =
      .ok [251, 1, n / 65536 / 256, n / 65536 % 256] := by
    rw [hsh, hdiv]
    simp only [_cmd_register]
    rw [packBBH_ok _ _ _ (by norm_num) (by norm_num) (by norm_num) (by norm_num)
      (by exact_mod_cast Nat.zero_le (n / 65536))
      (by exact_mod_cast Nat.div_lt_of_lt_mul (by omega))]
    simp
    omega
  have hc2 : _cmd_register 2 (Int.land ((n : Nat) : Int) 65535) =
      .ok [251, 2, n % 65536 / 256, n % 65536 % 256] := by
    rw [hland, hmod]
    simp only [_cmd_register]
    rw [packBBH_ok _ _ _ (by norm_num) (by norm_num) (by norm_num) (by norm_num)
      (by exact_mod_cast Nat.zero_le (n % 65536))
      (by exact_mod_cast Nat.mod_lt n (by norm_num))]
    simp
    omega
  simp only [Int.toNat_natCast]
  constructor
  · simp only [cfg_rs422, hc1, hc2]
    rfl
  · rfl

/-- Witness for the amended C5 at speed 0x12345678: register 1 carries
0x1234, register 2 carries 0x5678, one 2-command batch, 4-byte response. -/
theorem cfg_rs422_two_register_writes_witness :
    cfg_rs422 (fun _ => [0, 0, 0, 0]) 305419896 =
      .ok { written := [251, 1, 18, 52, 251, 2, 86, 120],
            readRequested := 4, outcome := .ok () } := by
  have h := cfg_rs422_two_register_writes (fun _ => [0, 0, 0, 0]) 305419896
    (by decide) (by decide)
  rw [h.1]
  decide

/-- C6 counterexample: at offset 300 the single write-table-entry command
cannot be encoded — `write_table` fails instead of emitting a 1-command
batch as the unrestricted claim states. -/
theorem write_table_out_of_range_offset_rejected :
    (write_table (fun _ => [0, 0]) 0 300 [0]).toOption = none := by decide

/-- C6 (amended): whenever every touched offset `o + i` lies in `0..255`
and every value in `0..65535` (table unrestricted), `write_table` emits
exactly one write-table-entry command per value, in order, in one batch —
the i-th carrying first byte `0x10 + (t & 0x03)`, offset `o + i`, and
value `vs[i]` — and requests a `2 * len(vs)`-byte response. -/
theorem write_table_enumerates_commands
    (read : Nat → List Nat) (table offset : Int) (values : List Int)
    (hoff : ∀ i : Nat, i < values.length →
      0 ≤ offset + (i : Int) ∧ offset + (i : Int) < 256)
    (hval : ∀ v ∈ values, 0 ≤ v ∧ v < 65536) :
    write_table read table offset values =
      .ok (_send read (expectedWriteTableCmds table offset 0 values)) ∧
    (expectedWriteTableCmds table offset 0 values).length = values.length ∧
    (∀ i : Nat, (expectedWriteTableCmds table offset 0 values)[i]? =
      (values[i]?).map (fun v =>
        [(16 + Int.land table 3).toNat, (offset + (i : Int)).toNat,
         v.toNat / 256, v.toNat % 256])) ∧
    (_send read (expectedWriteTableCmds table offset 0 values)).readRequested =
      2 * values.length := by
  have haux := writeTableCmdsAux_ok table offset values 0
    (fun i hi => by
      have h := hoff i hi
      simpa using h)
    hval
  refine ⟨?_, expectedWriteTableCmds_length table offset 0 values, ?_, ?_⟩
  · simp only [write_table, haux]
    rfl
  · intro i
    have h := expectedWriteTableCmds_getElem table offset 0 values i
    simpa [writeTableCmdBytes] using h
  · have hlen := expectedWriteTableCmds_length table offset 0 values
    have hr : (_send read
        (expectedWriteTableCmds table offset 0 values)).readRequested =
        (expectedWriteTableCmds table offset 0 values).length * 2 := rfl
    rw [hr, hlen, Nat.mul_comm]

/-- Witness for the amended C6 at the concrete instance from the spec:
table 0, offset 48, values 0x0000/0x1FFF/0x3FFE — sub-opcode byte 0x10,
offsets 48, 49, 50, one batch, 6-byte expected response. -/
theorem write_table_enumerates_commands_witness :
    write_table (fun _ => [0, 0, 0, 0, 0, 0]) 0 48 [0, 8191, 16382] =
      .ok { written := [16, 48, 0, 0, 16, 49, 31, 255, 16, 50, 63, 254],
            readRequested := 6, outcome := .ok () } := by
  have h := write_table_enumerates_commands (fun _ => [0, 0, 0, 0, 0, 0])
    0 48 [0, 8191, 16382] (by decide) (by decide)
  rw [h.1]
  decide

/-- C7: the bind-table sub-opcode byte is `0x10 + (t & 0x03)` — for every
natural table index t the second byte is `16 + t % 4`, and t + 4 encodes
the same command as t (wrap modulo 4: 4 as 0, 5 as 1, and so on). -/
theorem bind_table_subopcode_masked
    (channel : Int) (t : Nat) (h0 : 0 ≤ channel) (h1 : channel < 256) :
    _cmd_bind_table channel (t : Int) =
      .ok [channel.toNat, 16 + t % 4, 0, 0] ∧
    _cmd_bind_table channel ((t : Int) + 4) =
      _cmd_bind_table channel (t : Int) := by
  have hb1 : (0x10 : Int) + Int.land (t : Int) 3 = ((16 + t % 4 : Nat) : Int) := by
    rw [land3_natCast t]
    push_cast
    ring
  constructor
  · simp only [_cmd_bind_table, hb1]
    rw [packBBH_ok _ _ _ h0 h1 (by exact_mod_cast Nat.zero_le (16 + t % 4))
      (by exact_mod_cast (show 16 + t % 4 < 256 by omega))
      (by norm_num) (by norm_num)]
    simp
    omega
  · have hcast : ((t : Int) + 4) = ((t + 4 : Nat) : Int) := by push_cast; ring
    rw [hcast]
    simp only [_cmd_bind_table, land3_natCast (t + 4), land3_natCast t,
      Nat.add_mod_right]

/-- Witness for C7 at channel 2, table 5: second byte 17, and table 9
encodes the same command as table 5. -/
theorem bind_table_subopcode_masked_witness :
    _cmd_bind_table 2 ((5 : Nat) : Int) =
      .ok [(2 : Int).toNat, 16 + 5 % 4, 0, 0] ∧
    _cmd_bind_table 2 (((5 : Nat) : Int) + 4) =
      _cmd_bind_table 2 ((5 : Nat) : Int) :=
  bind_table_subopcode_masked 2 5 (by decide) (by decide)

/-- C8: for every channel in `0..255` and value in `0..65535`, the
direct-DAC command encodes to exactly the 4 bytes
`[channel, 0x00, value_hi, value_lo]` (big-endian value), and decoding
those 4 bytes recovers `(channel, 0x00, value)` — a round trip. -/
theorem cmd_direct_roundtrip (channel value : Nat)
    (hch : channel < 256) (hv : value < 65536) :
    _cmd_direct (channel : Int) (value : Int) =
      .ok [channel, 0, value / 256, value % 256] ∧
    unpackBBH [channel, 0, value / 256, value % 256] =
      some (channel, 0, value) := by
  constructor
  · simp only [_cmd_direct]
    rw [packBBH_ok _ _ _ (by exact_mod_cast Nat.zero_le channel)
      (by exact_mod_cast hch) (by norm_num) (by norm_num)
      (by exact_mod_cast Nat.zero_le value) (by exact_mod_cast hv)]
    simp
  · have h : value / 256 * 256 + value % 256 = value := by omega
    simp [unpackBBH, h]

/-- Witness for C8 at channel 7, value 0x1234. -/
theorem cmd_direct_roundtrip_witness :
    _cmd_direct ((7 : Nat) : Int) ((4660 : Nat) : Int) =
      .ok [7, 0, 4660 / 256, 4660 % 256] ∧
    unpackBBH [7, 0, 4660 / 256, 4660 % 256] = some (7, 0, 4660) :=
  cmd_direct_roundtrip 7 4660 (by decide) (by decide)

/-- C9: target-string dispatch is a total function of the string into the
two transport kinds; dotted-quad `ipv4:port` and bracketed `[ipv6]:port`
targets select the network transport, and representative other strings —
serial device names, missing or malformed ports among them — select the
serial transport. -/
theorem create_transport_dispatch :
    (∀ s : String, create_transport s = .tcp ∨ create_transport s = .serial) ∧
    create_transport "192.168.1.100:8080" = .tcp ∧
    create_transport "[::1]:8080" = .tcp ∧
    create_transport "/dev/ttyACM0" = .serial ∧
    create_transport "COM5" = .serial ∧
    create_transport "192.168.1.100:80a0" = .serial ∧
    create_transport "192.168.1.100:" = .serial ∧
    create_transport "192.168.1.100" = .serial ∧
    create_transport "1234.1.1.1:8080" = .serial ∧
    create_transport "localhost:8080" = .serial ∧
    create_transport "[::1]" = .serial := by
  refine ⟨?_, by decide, by decide, by decide, by decide, by decide, by decide,
    by decide, by decide, by decide, by decide⟩
  intro s
  cases h1 : matchTcpTarget s.data <;> cases h2 : matchTcpIpv6Target s.data <;>
    simp [create_transport, h1, h2]

/-- C10: an empty batch through `write_table` writes zero bytes, requests
a zero-byte read, checks no status words, and succeeds; the hypothesis
records that a zero-size read returns no bytes, as both transports do. -/
theorem write_table_empty_batch_succeeds
    (read : Nat → List Nat) (table offset : Int) (h0 : read 0 = []) :
    write_table read table offset [] =
      .ok { written := [], readRequested := 0, outcome := .ok () } := by
  have h : write_table read table offset [] = .ok (_send read []) := rfl
  rw [h]
  have h2 : _send read [] =
      { written := [], readRequested := 0,
        outcome :=
          if (read 0).length ≠ 0 then
            (if (read 0).length = 0 then Except.error (SendError.timeout 0)
            else Except.error (SendError.incomplete 0 (read 0).length))
          else checkStatus (statusWords (read 0)) } := rfl
  rw [h2, h0]
  rfl

/-- Witness for C10 with a transport whose reads return nothing. -/
theorem write_table_empty_batch_succeeds_witness :
    write_table (fun _ => []) 0 48 [] =
      .ok { written := [], readRequested := 0, outcome := .ok () } :=
  write_table_empty_batch_succeeds (fun _ => []) 0 48 rfl

end Csv1
